import Mathlib

/-!
Verification development for the Stock_Analyzer market-data acquisition layer.

The definitions below are a shallow embedding of the Python sources:
  * `backend/utils/rate_limiter.py`   (RateLimiter, RetryHandler)
  * `backend/utils/cache_manager.py`  (CacheManager)
  * `backend/modules/data_fetcher_enhanced.py` (EnhancedTaiwanStockDataFetcher)
  * `backend/modules/data_fetcher_smart.py`    (TaiwanStockDataFetcher)
  * `backend/modules/data_fetcher_ultimate.py` (UltimateTaiwanStockDataFetcher)

Modelling conventions:
  * wall-clock instants and durations are rationals (seconds);
  * `numpy.random` draws are modelled by an arbitrary generator function
    `G : ℤ → ℕ → ℚ` mapping a seed and a draw index to the drawn value;
    `np.random.seed s` resets the stream to `G s 0, G s 1, …`;
  * Python `round(x, 2)` is modelled as rounding to a multiple of 1/100
    (round half up); no statement below depends on tie behaviour;
  * a raised exception is an `Except.error`; an empty DataFrame is `[]`.
-/

namespace StockAnalyzer

/-! ## Data model -/

/-- One OHLCV row of the canonical DataFrame (columns 開盤價/最高價/最低價/收盤價/成交量). -/
structure Bar where
  openP : ℚ
  high : ℚ
  low : ℚ
  close : ℚ
  volume : ℤ
deriving DecidableEq

/-- Exceptions that the data-fetch code can raise. `valueError` models the
Python `ValueError` raised by `int(s)` on a non-numeral string. -/
inductive FetchError where
  | valueError : FetchError
deriving DecidableEq

/-- Python `round(x, 2)`: round to two decimal places (half up on rationals). -/
def round2 (x : ℚ) : ℚ := ((100 * x + 1/2).floor : ℚ) / 100

/-- Helper of `pyInt?`: fold a list of characters as decimal digits, failing on
any non-digit character. -/
def parseDigits : List Char → ℕ → Option ℕ
  | [], acc => some acc
  | c :: cs, acc =>
    if c.isDigit then parseDigits cs (10 * acc + (c.toNat - 48)) else none

/-- Python `int(s)` on a string: an optional leading minus sign followed by at
least one decimal digit; any other shape raises `ValueError` (modelled `none`). -/
def pyInt? (s : String) : Option ℤ :=
  match s.toList with
  | [] => none
  | '-' :: rest =>
    match rest with
    | [] => none
    | _ => (parseDigits rest 0).map (fun n => -(n : ℤ))
  | cs => (parseDigits cs 0).map (fun n => (n : ℤ))

/-! ## numpy random model

`np.random` is a global generator.  We model its state as a pair of the last
seed planted by `np.random.seed` and the number of draws consumed since; the
values drawn are given by an arbitrary function `G` of seed and index. -/

/-- Global `np.random` state: current seed and number of draws consumed. -/
structure RngState where
  seed : ℤ
  idx : ℕ
deriving DecidableEq

/-- `np.random.seed s` resets the draw stream. -/
def npSeed (s : ℤ) : RngState := ⟨s, 0⟩

/-! ## CacheManager (`backend/utils/cache_manager.py`) -/

/-- One entry of `CacheManager._cache` (a Python dict value). -/
structure CacheEntry (α : Type) where
  data : α
  created_at : ℚ
  expires_at : ℚ
  last_accessed : ℚ
  access_count : ℕ

/-- `CacheManager._cache`: a string-keyed dictionary, modelled as an
association list with at most one binding per key. -/
abbrev Cache (α : Type) := List (String × CacheEntry α)

/-- Remove the binding for `key` (Python `del self._cache[key]`). -/
def cacheErase (c : Cache α) (key : String) : Cache α :=
  c.filter (fun p => p.1 ≠ key)

/-- Replace or insert the binding for `key` (Python dict assignment). -/
def cacheInsert (c : Cache α) (key : String) (e : CacheEntry α) : Cache α :=
  (key, e) :: cacheErase c key

/-- `CacheManager.get`: returns the stored data unless the entry is expired
(`time.time() > expires_at`), in which case the entry is deleted and `None`
returned; a hit refreshes `last_accessed` and bumps `access_count`. -/
def cacheGet (c : Cache α) (key : String) (now : ℚ) : Option α × Cache α :=
  match c.lookup key with
  | none => (none, c)
  | some e =>
    if e.expires_at < now then
      (none, cacheErase c key)
    else
      (some e.data,
       cacheInsert c key
         { e with last_accessed := now, access_count := e.access_count + 1 })

/-- `CacheManager.set`: insert or overwrite with `expires_at = now + ttl`. -/
def cacheSet (c : Cache α) (key : String) (data : α) (ttl : ℚ) (now : ℚ) :
    Cache α :=
  cacheInsert c key
    { data := data, created_at := now, expires_at := now + ttl,
      last_accessed := now, access_count := 0 }

/-! ## RateLimiter (`backend/utils/rate_limiter.py`) -/

/-- Constructor arguments of `RateLimiter`. -/
structure RateLimiterConfig where
  max_requests : ℕ
  time_window : ℚ
  min_delay : ℚ
  max_delay : ℚ

/-- The module-level singleton configuration
`RateLimiter(max_requests=5, time_window=60, min_delay=2.0, max_delay=5.0)`. -/
def defaultRateLimiter : RateLimiterConfig := ⟨5, 60, 2, 5⟩

/-- Mutable state of a `RateLimiter` instance. `request_times` is the deque of
admission timestamps, oldest first. -/
structure RateLimiterState where
  request_times : List ℚ
  last_429_time : Option ℚ
  backoff_until : Option ℚ
deriving DecidableEq

/-- State of a freshly constructed `RateLimiter` (also the state after `reset`). -/
def initRateLimiterState : RateLimiterState := ⟨[], none, none⟩

/-- The pruning loop `while request_times and request_times[0] < cutoff: popleft()`. -/
def pruneWindow : List ℚ → ℚ → List ℚ
  | [], _ => []
  | t :: rest, cutoff =>
    if t < cutoff then pruneWindow rest cutoff else t :: rest

/-- Result of one `wait_if_needed` call: total seconds slept and the state of
the limiter afterwards. -/
structure WaitOutcome where
  waited : ℚ
  state : RateLimiterState
deriving DecidableEq

/-- Steps 2-5 of `RateLimiter.wait_if_needed` (the non-backoff path): prune the
window; if it is full, sleep until the oldest entry ages out plus one second
and prune again; sleep the random jitter; append the current timestamp.
`jitter` is the value drawn by `random.uniform(min_delay, max_delay)`.
When `max_requests = 0` and the window is empty the Python code would raise
`IndexError` on `request_times[0]`; that branch is unreachable for the
configurations used (`max_requests ≥ 1`) and is modelled as the non-full path. -/
def waitBody (cfg : RateLimiterConfig) (st : RateLimiterState)
    (now jitter : ℚ) : WaitOutcome :=
  let pruned := pruneWindow st.request_times (now - cfg.time_window)
  if cfg.max_requests ≤ pruned.length then
    match pruned with
    | [] =>
      ⟨jitter, { st with request_times := [now + jitter] }⟩
    | oldest :: _ =>
      let wait := max 0 (oldest + cfg.time_window - now) + 1
      let now2 := now + wait
      let pruned2 := pruneWindow pruned (now2 - cfg.time_window)
      ⟨wait + jitter, { st with request_times := pruned2 ++ [now2 + jitter] }⟩
  else
    ⟨jitter, { st with request_times := pruned ++ [now + jitter] }⟩

/-- `RateLimiter.wait_if_needed`: if a backoff is active (`now < backoff_until`)
sleep until it expires and return immediately; otherwise run the window check,
jitter sleep and timestamp append of `waitBody`. -/
def waitIfNeeded (cfg : RateLimiterConfig) (st : RateLimiterState)
    (now jitter : ℚ) : WaitOutcome :=
  match st.backoff_until with
  | some b => if now < b then ⟨b - now, st⟩ else waitBody cfg st now jitter
  | none => waitBody cfg st now jitter

/-- `RateLimiter._get_429_count`: 0 when no 429 was ever recorded or the last
one is more than one hour old, else 1. -/
def get429Count (st : RateLimiterState) (now : ℚ) : ℕ :=
  match st.last_429_time with
  | none => 0
  | some t => if 3600 < now - t then 0 else 1

/-- `RateLimiter.record_429_error`: store the signal time, then set
`backoff_until = now + backoff_seconds` where `backoff_seconds` is 60 on the
first-ever signal and `min(600, 60 * 2 ** _get_429_count())` afterwards.
Note that `last_429_time` is assigned before `_get_429_count` is consulted,
exactly as in the source. -/
def record429Error (st : RateLimiterState) (now : ℚ) : RateLimiterState :=
  let st1 := { st with last_429_time := some now }
  let backoff_seconds : ℚ :=
    match st.backoff_until with
    | none => 60
    | some _ => min 600 (60 * 2 ^ get429Count st1 now)
  { st1 with backoff_until := some (now + backoff_seconds) }

/-! ## RetryHandler (`backend/utils/rate_limiter.py`) -/

/-- The loop body of `RetryHandler.execute_with_retry`. `op` gives the result
of invoking `func` on each attempt (0-indexed); `remaining` counts the attempts
still allowed after the current one. The second component of the result is the
total number of invocations of `op`. -/
def retryFrom (op : ℕ → Except ε α) : ℕ → ℕ → Except ε α × ℕ
  | attempt, 0 =>
    match op attempt with
    | .ok a => (.ok a, attempt + 1)
    | .error e => (.error e, attempt + 1)
  | attempt, remaining + 1 =>
    match op attempt with
    | .ok a => (.ok a, attempt + 1)
    | .error _ => retryFrom op (attempt + 1) remaining

/-- `RetryHandler.execute_with_retry`: up to `max_retries + 1` attempts
(`for attempt in range(self.max_retries + 1)`); the exception of the final
failed attempt is re-raised. Returns the outcome and the invocation count. -/
def executeWithRetry (op : ℕ → Except ε α) (max_retries : ℕ) :
    Except ε α × ℕ :=
  retryFrom op 0 max_retries

/-! ## EnhancedTaiwanStockDataFetcher (`backend/modules/data_fetcher_enhanced.py`) -/

/-- The `reference_prices` dict of the enhanced fetcher (duplicate literal key
`'2454'` carries the same value and is dropped, as Python dict literals do). -/
def reference_prices : List (String × ℚ) :=
  [("2330", 618), ("2317", 109), ("2454", 1095), ("2412", 1225/10),
   ("2882", 612/10), ("2881", 851/10), ("2886", 3745/100), ("2891", 2795/100),
   ("2303", 549/10), ("2308", 371), ("2382", 256), ("2885", 2415/100),
   ("2002", 567/10), ("1301", 743/10), ("1303", 285/10)]

/-- `self.reference_prices.get(sid, 100.0)`. -/
def refPrice (sid : String) : ℚ := (reference_prices.lookup sid).getD 100

/-- The row constructor inside the loop of `_ref_data` (lines 190-204):
given the day's base `price`, the `volatility` and the five gaussian draws of
that iteration, build the OHLCV row exactly as the source does, including the
`round(..., 2)` calls and the `low + 0.1` floors. -/
def mkRefBar (price volatility g1 g2 g3 g4 g5 : ℚ) : Bar :=
  let high := price + |g1 * volatility|
  let low := price - |g2 * volatility|
  let open_price := price + g3 * volatility * (3/10)
  let close := price + g4 * volatility * (3/10)
  { openP := round2 (max open_price (low + 1/10))
    high := round2 (max high (max open_price close))
    low := round2 (min low (min open_price close))
    close := round2 (max close (low + 1/10))
    volume := Int.floor (|g5 * 8000000| + 5000000) }

/-- `EnhancedTaiwanStockDataFetcher._ref_data`: seeds `np.random` with
`int(sid) + days` (raising `ValueError` when `sid` is not a numeral), draws
`days` returns to form a cumulative-sum price path, then builds one row per
day with five further draws each. After the reseed the draw stream is
`G seed 0, G seed 1, …`: indices `0 … days-1` are the `randn(days)` returns
and indices `days + 5*i … days + 5*i + 4` are row `i`'s draws. -/
def refData (G : ℤ → ℕ → ℚ) (sid : String) (days : ℕ) :
    Except FetchError (List Bar) :=
  match pyInt? sid with
  | none => .error .valueError
  | some n =>
    let bp := refPrice sid
    let g : ℕ → ℚ := G (n + (days : ℤ))
    let prices : ℕ → ℚ := fun i =>
      bp + (Finset.range (i + 1)).sum (fun j => g j * bp * (12/1000))
    .ok ((List.range days).map (fun i =>
      let price := max (prices i) (bp * (7/10))
      let volatility := bp * (12/1000)
      mkRefBar price volatility
        (g (days + 5 * i)) (g (days + 5 * i + 1)) (g (days + 5 * i + 2))
        (g (days + 5 * i + 3)) (g (days + 5 * i + 4))))

/-- The loop of `_try_online_with_retry`: `online attempt` is the DataFrame
returned by the `attempt`-th call of `_try_online` (which swallows all its own
exceptions and returns an empty frame on failure); `remaining` counts the
attempts still allowed. Returns the first non-empty result, or `[]` once all
attempts are used, together with the number of `_try_online` invocations. -/
def towrAux (online : ℕ → List Bar) : ℕ → ℕ → List Bar × ℕ
  | attempt, 0 => ([], attempt)
  | attempt, remaining + 1 =>
    let df := online attempt
    if df.isEmpty then towrAux online (attempt + 1) remaining
    else (df, attempt + 1)

/-- `EnhancedTaiwanStockDataFetcher._try_online_with_retry`: up to
`max_retries` calls of `_try_online` (`for attempt in range(self.max_retries)`),
returning the first non-empty frame, else an empty frame. -/
def tryOnlineWithRetry (online : ℕ → List Bar) (max_retries : ℕ) :
    List Bar × ℕ :=
  towrAux online 0 max_retries

/-- The cache key `f"stock_price_{stock_id}_{days}"`. -/
def stockPriceKey (stock_id : String) (days : ℕ) : String :=
  "stock_price_" ++ stock_id ++ "_" ++ toString days

/-- Result of one `EnhancedTaiwanStockDataFetcher.get_stock_price` call:
the returned DataFrame (or the escaped exception), the cache afterwards, and
the number of `_try_online` invocations performed. -/
structure FetchOutcome where
  result : Except FetchError (List Bar)
  cache : Cache (List Bar)
  onlineCalls : ℕ

/-- `EnhancedTaiwanStockDataFetcher.get_stock_price`: consult the cache; on a
miss run `_try_online_with_retry`; if that is empty fall back to `_ref_data`
(whose `ValueError` on a non-numeral symbol escapes uncaught); store the
result in the cache only when caching is enabled and the frame is non-empty. -/
def getStockPrice (G : ℤ → ℕ → ℚ) (online : ℕ → List Bar) (max_retries : ℕ)
    (cache_ttl : ℚ) (use_cache : Bool) (c : Cache (List Bar)) (now : ℚ)
    (stock_id : String) (days : ℕ) : FetchOutcome :=
  match if use_cache then cacheGet c (stockPriceKey stock_id days) now
        else (none, c) with
  | (some data, c1) => ⟨.ok data, c1, 0⟩
  | (none, c1) =>
    match tryOnlineWithRetry online max_retries with
    | (df0, calls) =>
      match if df0.isEmpty then refData G stock_id days else .ok df0 with
      | .error e => ⟨.error e, c1, calls⟩
      | .ok df =>
        ⟨.ok df,
         if use_cache && !df.isEmpty then
           cacheSet c1 (stockPriceKey stock_id days) df cache_ttl now
         else c1,
         calls⟩

/-! ## TaiwanStockDataFetcher (`backend/modules/data_fetcher_smart.py`) -/

/-- The `reference_prices` dict of `_get_fallback_data` (duplicate literal key
`'2412'` carries the same value and is dropped, as Python dict literals do). -/
def reference_prices_smart : List (String × ℚ) :=
  [("2330", 618), ("2317", 109), ("2454", 1095), ("2412", 1225/10),
   ("2882", 612/10), ("2881", 851/10), ("2886", 3745/100), ("2891", 2795/100),
   ("2303", 549/10), ("2308", 371), ("2382", 256), ("2885", 2415/100),
   ("3008", 328/10), ("2892", 194/10)]

/-- `reference_prices.get(stock_id, 100.0)` of the smart fetcher. -/
def refPriceSmart (sid : String) : ℚ :=
  (reference_prices_smart.lookup sid).getD 100

/-- The row constructor inside the loop of `_get_fallback_data`
(lines 137-153): unlike `mkRefBar`, the simulated high is floored at
`low + volatility * 0.5` and low at `0.1` before rounding. -/
def mkFallbackBar (price volatility g1 g2 g3 g4 g5 : ℚ) : Bar :=
  let high0 := price + |g1 * volatility|
  let low0 := price - |g2 * volatility|
  let open_price := price + g3 * volatility * (3/10)
  let close_price := price + g4 * volatility * (3/10)
  let high := max (max high0 open_price)
    (max close_price (low0 + volatility * (1/2)))
  let low := min low0 (min open_price close_price)
  { openP := round2 (max open_price (low + 1/10))
    high := round2 high
    low := round2 (max low (1/10))
    close := round2 (max close_price (low + 1/10))
    volume := Int.floor (|g5 * 8000000| + 5000000) }

/-- `TaiwanStockDataFetcher._get_fallback_data`: reseeds `np.random` with
`int(stock_id) + days` on every call (raising `ValueError` on a non-numeral
symbol, with the incoming generator state left untouched), then generates a
cumulative-sum price path and one row per day; returns the frame and the
generator state afterwards (seeded, with `6 * days` draws consumed:
`days` for `randn(days)` and five per row). -/
def getFallbackData (G : ℤ → ℕ → ℚ) (stock_id : String) (days : ℕ)
    (rng : RngState) : Except FetchError (List Bar) × RngState :=
  match pyInt? stock_id with
  | none => (.error .valueError, rng)
  | some n =>
    let seed := n + (days : ℤ)
    let g : ℕ → ℚ := G seed
    let base_price := refPriceSmart stock_id
    let prices : ℕ → ℚ := fun i =>
      base_price + (Finset.range (i + 1)).sum
        (fun j => g j * base_price * (15/1000))
    (.ok ((List.range days).map (fun i =>
      let price := max (prices i) (base_price * (1/2))
      let volatility := base_price * (15/1000)
      mkFallbackBar price volatility
        (g (days + 5 * i)) (g (days + 5 * i + 1)) (g (days + 5 * i + 2))
        (g (days + 5 * i + 3)) (g (days + 5 * i + 4)))),
     ⟨seed, 6 * days⟩)

/-- The mutable attributes of `TaiwanStockDataFetcher` touched by
`get_stock_price`. -/
structure SmartState where
  use_real_data : Bool
  last_real_data_time : Option ℚ
deriving DecidableEq

/-- `TaiwanStockDataFetcher.get_stock_price`: `yfinance` is the frame returned
by `_get_price_from_yfinance` (which swallows its own exceptions). A non-empty
frame is returned as-is after setting `use_real_data = True`; an empty one
falls through to `_get_fallback_data`, which leaves the fetcher state
untouched. Returns (result, rng afterwards, fetcher state afterwards). -/
def smartGetStockPrice (G : ℤ → ℕ → ℚ) (yfinance : List Bar)
    (st : SmartState) (rng : RngState) (now : ℚ) (stock_id : String)
    (days : ℕ) : Except FetchError (List Bar) × RngState × SmartState :=
  if yfinance.isEmpty then
    let fb := getFallbackData G stock_id days rng
    (fb.1, fb.2, st)
  else
    (.ok yfinance, rng, ⟨true, some now⟩)

/-! ## UltimateTaiwanStockDataFetcher (`backend/modules/data_fetcher_ultimate.py`) -/

/-- `UltimateTaiwanStockDataFetcher.get_stock_price`: try the protected
yfinance tier, then the FinMind tier (when a FinMind fetcher was constructed);
when both are empty return an empty frame — the comment at line 137 reads
"無法獲取資料，返回空 DataFrame（不使用假資料）" (return an empty DataFrame,
do not use fake data); `_get_reference_data` is not invoked. -/
def ultimateGetStockPrice (yfTier finmindTier : String → ℕ → List Bar)
    (hasFinmind : Bool) (stock_id : String) (days : ℕ) : List Bar :=
  let df1 := yfTier stock_id days
  if !df1.isEmpty then df1
  else
    let df2 := if hasFinmind then finmindTier stock_id days else []
    if !df2.isEmpty then df2 else []

/-- A concrete OHLCV row used to instantiate witnesses. -/
def sampleBar : Bar := ⟨1, 2, 1, 2, 100⟩

/-! ## Helper lemmas -/

/-- `Rat.floor` agrees with the `Int.floor` of the floor ring structure. -/
theorem ratFloor_eq_intFloor (a : ℚ) : a.floor = ⌊a⌋ := by
  rw [Rat.floor_def', Rat.floor_def]

/-- Rounding to two decimals is monotone. -/
theorem round2_mono {x y : ℚ} (h : x ≤ y) : round2 x ≤ round2 y := by
  unfold round2
  rw [ratFloor_eq_intFloor, ratFloor_eq_intFloor]
  have h1 : ⌊100 * x + 1/2⌋ ≤ ⌊100 * y + 1/2⌋ := Int.floor_mono (by linarith)
  have h2 : ((⌊100 * x + 1/2⌋ : ℤ) : ℚ) ≤ ((⌊100 * y + 1/2⌋ : ℤ) : ℚ) :=
    Int.cast_le.mpr h1
  linarith

/-- Evaluate `round2` at a point whose scaled value lies in `[n, n+1)`. -/
theorem round2_eq_of (x : ℚ) (n : ℤ) (h1 : (n : ℚ) ≤ 100 * x + 1/2)
    (h2 : 100 * x + 1/2 < (n : ℚ) + 1) : round2 x = (n : ℚ) / 100 := by
  unfold round2
  rw [ratFloor_eq_intFloor, Int.floor_eq_iff.mpr ⟨h1, h2⟩]

/-! ## Claim theorems -/

/-- C1 (code_bug): the claim — `get_stock_price` never lets a data-fetch
exception escape — is right as a reading of the spec's propagation policy, but
the code violates it: for a symbol that is not a decimal numeral (here "ABC"),
when every online attempt returns an empty frame the fallback `_ref_data`
evaluates `int(sid)`, and the resulting `ValueError` escapes `get_stock_price`
uncaught instead of an empty-result sentinel being returned. -/
theorem C1_valueError_escapes :
    (getStockPrice (fun _ _ => 0) (fun _ => []) 3 300 true [] 0 "ABC" 30).result
      = .error .valueError := rfl

/-- C2 (counterexample): with symbol "9999" and days = 30 and every real tier
returning EMPTY, `UltimateTaiwanStockDataFetcher.get_stock_price` does not fall
through to synthesis: it returns an empty frame (0 rows, not 30), so the claim
as stated is false of this fetch operation. -/
theorem C2_counterexample :
    (ultimateGetStockPrice (fun _ _ => []) (fun _ _ => []) true "9999" 30).length
      = 0 ∧ (0 : ℕ) ≠ 30 := ⟨rfl, by decide⟩

/-- C2 (amended): in the smart fetcher, when the real tier returns EMPTY,
`get_stock_price` falls through to the synthetic `_get_fallback_data` and
returns exactly `days` rows for any symbol whose code parses as an integer;
however no degraded/reference marker is attached: the fetcher's state (its
`use_real_data` flag included) is left exactly as it was. The ultimate fetcher
instead returns the empty sentinel without synthesizing (see the
counterexample). -/
theorem C2_smart_fallback_rows (G : ℤ → ℕ → ℚ) (st : SmartState)
    (rng : RngState) (now : ℚ) (stock_id : String) (days : ℕ) (n : ℤ)
    (h : pyInt? stock_id = some n) :
    (∃ bars, (smartGetStockPrice G [] st rng now stock_id days).1 = .ok bars
        ∧ bars.length = days)
    ∧ (smartGetStockPrice G [] st rng now stock_id days).2.2 = st := by
  simp [smartGetStockPrice, getFallbackData, h]

/-- C2 (witness): the amended statement at symbol "9999", days = 30. -/
theorem C2_smart_fallback_rows_witness :
    (∃ bars,
        (smartGetStockPrice (fun _ _ => 0) [] ⟨true, none⟩ ⟨0, 0⟩ 0 "9999" 30).1
          = .ok bars ∧ bars.length = 30)
    ∧ (smartGetStockPrice (fun _ _ => 0) [] ⟨true, none⟩ ⟨0, 0⟩ 0 "9999" 30).2.2
        = ⟨true, none⟩ :=
  C2_smart_fallback_rows (fun _ _ => 0) ⟨true, none⟩ ⟨0, 0⟩ 0 "9999" 30 9999 rfl

/-- C3 (code_bug): the claim's backoff schedule (doubling per consecutive 429,
`min(max_backoff, base_backoff * 2 ^ consecutive_failures)`, matching the
function's own docstring "第3次: 300秒, 第4次+: 600秒") is not what the code
computes: `_get_429_count` never returns more than 1, so the third consecutive
429 (and every later one) sets a 120-second backoff — not 240 seconds (the
claim's formula) and not 300 seconds (the docstring). -/
theorem C3_third_429_backoff :
    (record429Error initRateLimiterState 0).backoff_until = some 60
    ∧ (record429Error (record429Error initRateLimiterState 0) 10).backoff_until
        = some 130
    ∧ (record429Error (record429Error (record429Error initRateLimiterState 0)
        10) 20).backoff_until = some 140
    ∧ (140 : ℚ) ≠ 20 + 60 * 2 ^ 2 ∧ (140 : ℚ) ≠ 20 + 300 := by
  refine ⟨?_, ?_, ?_, by norm_num, by norm_num⟩ <;>
    norm_num [record429Error, get429Count, initRateLimiterState]

/-- Behaviour of the non-backoff path of `wait_if_needed` (steps 2-5 of the
source): the jitter is always slept (`waited ≥ min_delay`); the admission
timestamp `now + waited` is appended at the end of the window; when the pruned
window is below the cap the outcome is exactly jitter-then-append; when it is
full the total wait is the age-out time of the oldest entry plus one second
plus the jitter. -/
theorem waitBody_spec (cfg : RateLimiterConfig) (st : RateLimiterState)
    (now jitter : ℚ) (hj : cfg.min_delay ≤ jitter) :
    cfg.min_delay ≤ (waitBody cfg st now jitter).waited
    ∧ (∃ l, (waitBody cfg st now jitter).state.request_times
        = l ++ [now + (waitBody cfg st now jitter).waited])
    ∧ ((pruneWindow st.request_times (now - cfg.time_window)).length
          < cfg.max_requests →
        waitBody cfg st now jitter = ⟨jitter,
          { st with request_times :=
              pruneWindow st.request_times (now - cfg.time_window)
                ++ [now + jitter] }⟩)
    ∧ (∀ oldest rest,
        pruneWindow st.request_times (now - cfg.time_window) = oldest :: rest →
        cfg.max_requests
          ≤ (pruneWindow st.request_times (now - cfg.time_window)).length →
        (waitBody cfg st now jitter).waited
          = max 0 (oldest + cfg.time_window - now) + 1 + jitter) := by
  simp only [waitBody]
  split
  case isTrue hfull =>
    split
    case h_1 heq =>
      rw [heq] at hfull
      refine ⟨hj, ⟨[], by simp⟩, ?_, ?_⟩
      · intro hlt
        rw [heq] at hlt
        omega
      · intro o r hor _
        rw [heq] at hor
        exact List.noConfusion hor
    case h_2 oldest rest heq =>
      have h0 : (0 : ℚ) ≤ max 0 (oldest + cfg.time_window - now) := le_max_left 0 _
      refine ⟨?_, ⟨pruneWindow (oldest :: rest)
        (now + (max 0 (oldest + cfg.time_window - now) + 1) - cfg.time_window), ?_⟩, ?_, ?_⟩
      · show cfg.min_delay ≤ max 0 (oldest + cfg.time_window - now) + 1 + jitter
        linarith
      · rw [show now + (max 0 (oldest + cfg.time_window - now) + 1) + jitter
            = now + (max 0 (oldest + cfg.time_window - now) + 1 + jitter) by ring]
        rw [heq]
      · intro hlt
        rw [heq] at hlt hfull
        omega
      · intro o r hor _
        rw [heq] at hor
        injection hor with h1 h2
        subst h1
        rfl
  case isFalse hfull =>
    refine ⟨hj, ⟨_, rfl⟩, fun _ => rfl, ?_⟩
    intro o r hor hge
    exact absurd hge (by omega)

/-- C4 (counterexample): with an active backoff (`backoff_until = 100`,
`now = 50`) and a drawn jitter of 3 (inside `[min_delay, max_delay] = [2, 5]`
of the default configuration), `wait_if_needed` sleeps exactly the 50 seconds
of remaining backoff — not 50 plus a jitter — and appends nothing to the
request window, so steps (c) and (d) are not performed on this call and the
claim as stated is false. -/
theorem C4_counterexample :
    (waitIfNeeded defaultRateLimiter ⟨[], none, some 100⟩ 50 3).waited = 50
    ∧ (waitIfNeeded defaultRateLimiter ⟨[], none, some 100⟩ 50 3).state.request_times
        = [] := by
  constructor <;> norm_num [waitIfNeeded]

/-- C4 (amended): `wait_if_needed` performs (a)-(d) in order, except that a
call which waited out an active backoff returns immediately after the backoff
sleep, performing neither the jitter sleep (c) nor the timestamp append (d):
(a) with an active backoff the call sleeps `backoff_until - now` and leaves
the state untouched; otherwise (b) if the pruned window is full the call
additionally sleeps until the oldest entry ages out plus one second, (c) the
jitter is slept (`waited ≥ min_delay`), and (d) the admission timestamp
`now + waited` is appended to the window. -/
theorem C4_wait_if_needed_steps (cfg : RateLimiterConfig)
    (st : RateLimiterState) (now jitter : ℚ)
    (hj : cfg.min_delay ≤ jitter) :
    (∀ b, st.backoff_until = some b → now < b →
        waitIfNeeded cfg st now jitter = ⟨b - now, st⟩)
    ∧ ((∀ b, st.backoff_until = some b → b ≤ now) →
        cfg.min_delay ≤ (waitIfNeeded cfg st now jitter).waited
        ∧ (∃ l, (waitIfNeeded cfg st now jitter).state.request_times
            = l ++ [now + (waitIfNeeded cfg st now jitter).waited])
        ∧ ((pruneWindow st.request_times (now - cfg.time_window)).length
              < cfg.max_requests →
            waitIfNeeded cfg st now jitter = ⟨jitter,
              { st with request_times :=
                  pruneWindow st.request_times (now - cfg.time_window)
                    ++ [now + jitter] }⟩)
        ∧ (∀ oldest rest,
            pruneWindow st.request_times (now - cfg.time_window)
              = oldest :: rest →
            cfg.max_requests
              ≤ (pruneWindow st.request_times (now - cfg.time_window)).length →
            (waitIfNeeded cfg st now jitter).waited
              = max 0 (oldest + cfg.time_window - now) + 1 + jitter)) := by
  constructor
  · intro b hb hlt
    simp [waitIfNeeded, hb, hlt]
  · intro hnb
    have hw : waitIfNeeded cfg st now jitter = waitBody cfg st now jitter := by
      unfold waitIfNeeded
      cases hB : st.backoff_until with
      | none => rfl
      | some b =>
        simp only [hB]
        rw [if_neg (not_lt.mpr (hnb b hB))]
    rw [hw]
    exact waitBody_spec cfg st now jitter hj

/-- C4 (witness): the amended statement evaluated on a fresh limiter with the
default configuration at time 0 and drawn jitter 3: the call sleeps exactly
the jitter and appends the admission timestamp. -/
theorem C4_witness :
    waitIfNeeded defaultRateLimiter initRateLimiterState 0 3
      = ⟨3, ⟨[0 + 3], none, none⟩⟩ :=
  ((C4_wait_if_needed_steps defaultRateLimiter initRateLimiterState 0 3
      (by norm_num [defaultRateLimiter])).2
    (fun b hb => Option.noConfusion hb)).2.2.1 (by decide)

/-- Looking up a key right after inserting it yields the inserted entry. -/
theorem lookup_cacheInsert_self {α : Type} (c : Cache α) (key : String)
    (e : CacheEntry α) : (cacheInsert c key e).lookup key = some e := by
  simp [cacheInsert, List.lookup]

/-- Looking up a key right after erasing it misses. -/
theorem lookup_cacheErase_self {α : Type} (c : Cache α) (key : String) :
    (cacheErase c key).lookup key = none := by
  induction c with
  | nil => rfl
  | cons p rest ih =>
    by_cases h : p.1 = key
    · simpa [cacheErase, h] using ih
    · have hd : (decide ¬(p.1 = key)) = true := by simp [h]
      have hbeq : (key == p.1) = false := by
        simp only [beq_eq_false_iff_ne]
        exact Ne.symm h
      simp only [cacheErase] at ih ⊢
      rw [List.filter_cons]
      simp only [hd, if_true]
      simp only [List.lookup, hbeq]
      exact ih

/-- `get` after `set` on the same key: a hit (with refreshed access metadata)
unless `expires_at < now`, in which case the entry is evicted and the result
is a miss. -/
theorem cacheGet_cacheSet_self {α : Type} (c : Cache α) (key : String) (v : α)
    (ttl t0 t1 : ℚ) :
    cacheGet (cacheSet c key v ttl t0) key t1
      = if t0 + ttl < t1 then (none, cacheErase (cacheSet c key v ttl t0) key)
        else (some v, cacheInsert (cacheSet c key v ttl t0) key
          ⟨v, t0, t0 + ttl, t1, 1⟩) := by
  unfold cacheGet cacheSet
  rw [lookup_cacheInsert_self]

/-- A `get_stock_price` call that misses the cache and returns a non-empty
frame stores exactly that frame under the fetch key. -/
theorem getStockPrice_stores {G : ℤ → ℕ → ℚ} {online : ℕ → List Bar}
    {maxR : ℕ} {ttl : ℚ} {c : Cache (List Bar)} {t0 : ℚ} {sid : String}
    {days : ℕ} {bars : List Bar}
    (hmiss : (cacheGet c (stockPriceKey sid days) t0).1 = none)
    (hres : (getStockPrice G online maxR ttl true c t0 sid days).result = .ok bars)
    (hne : bars.isEmpty = false) :
    (getStockPrice G online maxR ttl true c t0 sid days).cache
      = cacheSet (cacheGet c (stockPriceKey sid days) t0).2
          (stockPriceKey sid days) bars ttl t0 := by
  unfold getStockPrice at hres ⊢
  simp only [if_true] at hres ⊢
  split at hres
  next data c1 hcg =>
    rw [hcg] at hmiss
    simp at hmiss
  next c1 hcg =>
    rw [hcg]
    split at hres
    next e hdf =>
      simp at hres
    next df hdf =>
      simp at hres ⊢
      subst hres
      simp [hne]
      intro h
      subst h
      simp at hne

/-- A `get_stock_price` call whose cache lookup hits returns the cached frame
without invoking `_try_online` at all. -/
theorem getStockPrice_cache_hit {G : ℤ → ℕ → ℚ} {online : ℕ → List Bar}
    {maxR : ℕ} {ttl : ℚ} {c : Cache (List Bar)} {now : ℚ} {sid : String}
    {days : ℕ} {bars : List Bar}
    (hhit : (cacheGet c (stockPriceKey sid days) now).1 = some bars) :
    getStockPrice G online maxR ttl true c now sid days
      = ⟨.ok bars, (cacheGet c (stockPriceKey sid days) now).2, 0⟩ := by
  unfold getStockPrice
  simp only [if_true]
  split
  next data c1 hcg =>
    rw [hcg] at hhit
    simp at hhit
    subst hhit
    rw [hcg]
  next c1 hcg =>
    rw [hcg] at hhit
    simp at hhit

/-- C5 (counterexample): `CacheManager.get` evicts only when
`time.time() > expires_at`, so at the boundary instant `now = expires_at`
(set at t=0 with ttl=300, get at t=300) the stored value is returned even
though the claim's condition `now < expires_at` is false — the "iff" of the
claim fails at this input. -/
theorem C5_counterexample :
    (cacheGet (cacheSet ([] : Cache ℕ) "k" 7 300 0) "k" 300).1 = some 7
    ∧ ¬ ((300 : ℚ) < 0 + 300) := by
  refine ⟨?_, by norm_num⟩
  rw [cacheGet_cacheSet_self]
  norm_num

/-- C5 (amended): `get(key)` after `set(key, v, ttl)` at `t0` returns the
stored value iff `now ≤ expires_at = t0 + ttl` (the code evicts only when
`now > expires_at`); on a miss the entry is evicted (a later lookup misses);
and consequently a second `get_stock_price` for the same (symbol, days) at
`t1 ≤ t0 + ttl`, after a first call that missed the cache and stored a
non-empty frame, returns the cached frame and performs zero `_try_online`
invocations — whatever providers the second call is configured with. -/
theorem C5_cache_contract {α : Type} (c : Cache α) (key : String) (v : α)
    (ttl t0 t1 : ℚ) :
    ((cacheGet (cacheSet c key v ttl t0) key t1).1 = some v ↔ t1 ≤ t0 + ttl)
    ∧ (t0 + ttl < t1 →
        ((cacheGet (cacheSet c key v ttl t0) key t1).2).lookup key = none)
    ∧ (∀ (G G' : ℤ → ℕ → ℚ) (online online' : ℕ → List Bar) (maxR maxR' : ℕ)
        (ttl2 ttl2' : ℚ) (c2 : Cache (List Bar)) (sid : String) (days : ℕ)
        (bars : List Bar),
        (cacheGet c2 (stockPriceKey sid days) t0).1 = none →
        (getStockPrice G online maxR ttl2 true c2 t0 sid days).result = .ok bars →
        bars.isEmpty = false →
        t1 ≤ t0 + ttl2 →
        ((getStockPrice G' online' maxR' ttl2' true
            (getStockPrice G online maxR ttl2 true c2 t0 sid days).cache
            t1 sid days).result = .ok bars)
        ∧ (getStockPrice G' online' maxR' ttl2' true
            (getStockPrice G online maxR ttl2 true c2 t0 sid days).cache
            t1 sid days).onlineCalls = 0) := by
  refine ⟨?_, ?_, ?_⟩
  · rw [cacheGet_cacheSet_self]
    by_cases hlt : t0 + ttl < t1
    · rw [if_pos hlt]
      simp
      linarith
    · rw [if_neg hlt]
      simp
      linarith
  · intro hlt
    rw [cacheGet_cacheSet_self, if_pos hlt]
    exact lookup_cacheErase_self _ _
  · intro G G' online online' maxR maxR' ttl2 ttl2' c2 sid days bars
      hmiss hres hne hle
    have hstore := getStockPrice_stores hmiss hres hne
    have hhit : (cacheGet
        (getStockPrice G online maxR ttl2 true c2 t0 sid days).cache
        (stockPriceKey sid days) t1).1 = some bars := by
      rw [hstore, cacheGet_cacheSet_self, if_neg (not_lt.mpr hle)]
    rw [getStockPrice_cache_hit hhit]
    exact ⟨rfl, rfl⟩

/-- C5 (witness): the amended statement evaluated concretely — a first fetch
for ("2330", 5) at t=0 with ttl 300 stores the provider's frame; a second
fetch at t=100 returns it with zero online invocations. -/
theorem C5_witness :
    ((getStockPrice (fun _ _ => 0) (fun _ => [sampleBar]) 3 300 true
        (getStockPrice (fun _ _ => 0) (fun _ => [sampleBar]) 3 300 true [] 0
          "2330" 5).cache 100 "2330" 5).result = .ok [sampleBar])
    ∧ (getStockPrice (fun _ _ => 0) (fun _ => [sampleBar]) 3 300 true
        (getStockPrice (fun _ _ => 0) (fun _ => [sampleBar]) 3 300 true [] 0
          "2330" 5).cache 100 "2330" 5).onlineCalls = 0 :=
  (C5_cache_contract ([] : Cache ℕ) "x" 0 0 0 100).2.2
    (fun _ _ => 0) (fun _ _ => 0) (fun _ => [sampleBar]) (fun _ => [sampleBar])
    3 3 300 300 [] "2330" 5 [sampleBar] rfl rfl rfl (by norm_num)

/-- The retry loop performs at most `remaining + 1` further invocations. -/
theorem retryFrom_count_le {ε α : Type} (op : ℕ → Except ε α) (f a : ℕ) :
    (retryFrom op a f).2 ≤ a + f + 1 := by
  induction f generalizing a with
  | zero =>
    cases hop : op a <;> simp [retryFrom, hop]
  | succ f ih =>
    cases hop : op a with
    | ok v => simp only [retryFrom, hop]; omega
    | error e =>
      have h := ih (a + 1)
      simp only [retryFrom, hop]
      omega

/-- If the next `k` attempts fail and the one after succeeds within the
budget, the retry loop returns that success after exactly `k + 1` further
invocations. -/
theorem retryFrom_success {ε α : Type} (op : ℕ → Except ε α) (v : α) :
    ∀ (k a f : ℕ), k ≤ f →
    (∀ i, a ≤ i → i < a + k → ∃ e, op i = .error e) →
    op (a + k) = .ok v → retryFrom op a f = (.ok v, a + k + 1) := by
  intro k
  induction k with
  | zero =>
    intro a f _ _ hok
    rw [Nat.add_zero] at hok
    cases f <;> simp [retryFrom, hok]
  | succ k ih =>
    intro a f hkf herr hok
    cases f with
    | zero => omega
    | succ f =>
      obtain ⟨e, he⟩ := herr a (Nat.le_refl a) (by omega)
      have herr2 : ∀ i, a + 1 ≤ i → i < (a + 1) + k → ∃ e, op i = .error e :=
        fun i h1 h2 => herr i (by omega) (by omega)
      have hok2 : op ((a + 1) + k) = .ok v := by
        rw [show (a + 1) + k = a + (k + 1) by omega]
        exact hok
      have h := ih (a + 1) f (by omega) herr2 hok2
      simp only [retryFrom, he]
      rw [h]
      congr 1
      omega

/-- If every attempt in the budget fails, the retry loop propagates the last
attempt's failure after the full `f + 1` invocations. -/
theorem retryFrom_allfail {ε α : Type} (op : ℕ → Except ε α) (e : ε) :
    ∀ (f a : ℕ),
    (∀ i, a ≤ i → i < a + f → ∃ e', op i = .error e') →
    op (a + f) = .error e → retryFrom op a f = (.error e, a + f + 1) := by
  intro f
  induction f with
  | zero =>
    intro a _ hlast
    rw [Nat.add_zero] at hlast
    simp [retryFrom, hlast]
  | succ f ih =>
    intro a herr hlast
    obtain ⟨e', he'⟩ := herr a (Nat.le_refl a) (by omega)
    have herr2 : ∀ i, a + 1 ≤ i → i < (a + 1) + f → ∃ e', op i = .error e' :=
      fun i h1 h2 => herr i (by omega) (by omega)
    have hlast2 : op ((a + 1) + f) = .error e := by
      rw [show (a + 1) + f = a + (f + 1) by omega]
      exact hlast
    have h := ih (a + 1) herr2 hlast2
    simp only [retryFrom, he']
    rw [h]
    congr 1
    omega

/-- C6: `execute_with_retry` invokes `op` at most `max_retries + 1` times; if
`op` fails exactly `k < max_retries` times and then succeeds it returns the
success value after exactly `k + 1` invocations; and if every one of the
`max_retries + 1` invocations fails, the failure of the last invocation is
propagated to the caller rather than swallowed. -/
theorem C6_execute_with_retry {ε α : Type} (op : ℕ → Except ε α)
    (max_retries : ℕ) :
    ((executeWithRetry op max_retries).2 ≤ max_retries + 1)
    ∧ (∀ (k : ℕ) (v : α), k < max_retries →
        (∀ i, i < k → ∃ e, op i = .error e) → op k = .ok v →
        executeWithRetry op max_retries = (.ok v, k + 1))
    ∧ (∀ e : ε, (∀ i, i ≤ max_retries → ∃ e', op i = .error e') →
        op max_retries = .error e →
        executeWithRetry op max_retries = (.error e, max_retries + 1)) := by
  refine ⟨?_, ?_, ?_⟩
  · have h := retryFrom_count_le op max_retries 0
    simpa [executeWithRetry] using h
  · intro k v hk herr hok
    have h := retryFrom_success op v k 0 max_retries (by omega)
      (fun i h1 h2 => herr i (by omega)) (by simpa using hok)
    simpa [executeWithRetry] using h
  · intro e hall hlast
    have h := retryFrom_allfail op e max_retries 0
      (fun i h1 h2 => hall i (by omega)) (by simpa using hlast)
    simpa [executeWithRetry] using h

/-- C6 (witness): an operation failing twice then succeeding, under the
default budget `max_retries = 3`, returns the success value after exactly
three invocations. -/
theorem C6_witness :
    executeWithRetry
      (fun i => if i < 2 then (Except.error 0 : Except ℕ ℕ) else .ok 42) 3
      = (.ok 42, 3) :=
  (C6_execute_with_retry
      (fun i => if i < 2 then (Except.error 0 : Except ℕ ℕ) else .ok 42) 3).2.1
    2 42 (by omega) (fun i hi => ⟨0, if_pos hi⟩) rfl

/-- If every remaining attempt returns an empty frame, the online retry loop
uses all of them before giving up. -/
theorem towrAux_allEmpty (online : ℕ → List Bar) :
    ∀ (f a : ℕ), (∀ i, a ≤ i → i < a + f → online i = []) →
    towrAux online a f = ([], a + f) := by
  intro f
  induction f with
  | zero => intro a _; rfl
  | succ f ih =>
    intro a hall
    have h0 : online a = [] := hall a (Nat.le_refl a) (by omega)
    have h := ih (a + 1) (fun i h1 h2 => hall i (by omega) (by omega))
    simp only [towrAux, h0, List.isEmpty_nil, if_true]
    rw [h]
    congr 1
    omega

/-- The online retry loop returns the first non-empty attempt, after exactly
`k + 1` further invocations when the first `k` attempts were empty. -/
theorem towrAux_firstNonempty (online : ℕ → List Bar) :
    ∀ (k a f : ℕ), k < f → (∀ i, a ≤ i → i < a + k → online i = []) →
    online (a + k) ≠ [] → towrAux online a f = (online (a + k), a + k + 1) := by
  intro k
  induction k with
  | zero =>
    intro a f hf _ hne
    rw [Nat.add_zero] at hne ⊢
    cases f with
    | zero => omega
    | succ f =>
      simp only [towrAux]
      rw [if_neg (by simpa [List.isEmpty_iff] using hne)]
  | succ k ih =>
    intro a f hf hall hne
    cases f with
    | zero => omega
    | succ f =>
      have h0 : online a = [] := hall a (Nat.le_refl a) (by omega)
      have h := ih (a + 1) f (by omega)
        (fun i h1 h2 => hall i (by omega) (by omega))
        (by rw [show (a + 1) + k = a + (k + 1) by omega]; exact hne)
      simp only [towrAux, h0, List.isEmpty_nil, if_true]
      rw [h]
      rw [show (a + 1) + k = a + (k + 1) by omega]

/-- C7 (counterexample): with `_try_online` returning an empty frame (the
DataUnavailable case: reachable upstream, no rows) on every attempt and the
default `max_retries = 3`, `_try_online_with_retry` invokes the tier 3 times —
not once — so an empty result is retried rather than immediately falling
through, refuting the claim. -/
theorem C7_counterexample :
    (tryOnlineWithRetry (fun _ => []) 3).2 = 3 ∧ (3 : ℕ) ≠ 1 := ⟨rfl, by decide⟩

/-- C7 (amended): an empty (DataUnavailable) response is retried exactly like a
failure: `_try_online` is invoked until it returns a non-empty frame or
`max_retries` attempts are exhausted (sleeping `retry_delay` between empty
attempts), and only after `max_retries` empty attempts does `get_stock_price`
fall through to the `_ref_data` reference tier. -/
theorem C7_empty_not_immediate (online : ℕ → List Bar) (max_retries : ℕ) :
    ((∀ i, i < max_retries → online i = []) →
        tryOnlineWithRetry online max_retries = ([], max_retries)
        ∧ (∀ (G : ℤ → ℕ → ℚ) (ttl : ℚ) (c : Cache (List Bar)) (now : ℚ)
            (sid : String) (days : ℕ),
            (getStockPrice G online max_retries ttl false c now sid days).result
              = refData G sid days
            ∧ (getStockPrice G online max_retries ttl false c now
                sid days).onlineCalls = max_retries))
    ∧ (∀ k, k < max_retries → (∀ i, i < k → online i = []) →
        online k ≠ [] →
        tryOnlineWithRetry online max_retries = (online k, k + 1)) := by
  constructor
  · intro hall
    have htry : tryOnlineWithRetry online max_retries = ([], max_retries) := by
      have h := towrAux_allEmpty online max_retries 0
        (fun i h1 h2 => hall i (by omega))
      simpa [tryOnlineWithRetry] using h
    refine ⟨htry, ?_⟩
    intro G ttl c now sid days
    unfold getStockPrice
    rw [htry]
    simp only [Bool.false_eq_true, if_false, List.isEmpty_nil, if_true]
    cases href : refData G sid days <;> simp [href]
  · intro k hk hall hne
    have h := towrAux_firstNonempty online k 0 max_retries hk
      (fun i h1 h2 => hall i (by omega)) (by simpa using hne)
    simpa [tryOnlineWithRetry] using h

/-- C7 (witness): a tier that is empty on its first attempt and non-empty on
its second is invoked exactly twice under the default budget of 3. -/
theorem C7_witness :
    tryOnlineWithRetry
      (fun i => if i < 1 then [] else [sampleBar]) 3 = ([sampleBar], 2) :=
  (C7_empty_not_immediate (fun i => if i < 1 then [] else [sampleBar]) 3).2
    1 (by omega) (fun i hi => if_pos hi) (by norm_num)

/-- C8: the synthetic series generator is deterministic because it reseeds the
process-global `np.random` stream from `int(stock_id) + days` on every call:
the generated frame is independent of whatever state the generator was in
before the call, so two calls with identical inputs (same symbol, days and
draw function — i.e. the same process at the same logical time) produce
identical output. -/
theorem C8_generator_reseeds (G : ℤ → ℕ → ℚ) (stock_id : String) (days : ℕ)
    (rng1 rng2 : RngState) :
    (getFallbackData G stock_id days rng1).1
      = (getFallbackData G stock_id days rng2).1 := by
  unfold getFallbackData
  cases pyInt? stock_id <;> rfl

/-- C9 (counterexample): the synthetic tier can emit a bar with
`open > high`. With an unmapped symbol ("9999", base price 100, volatility
1.2) and every gaussian draw equal to 0, `_ref_data` produces the single bar
`mkRefBar 100 1.2 0 0 0 0 0`, whose open is `round(max(100, low + 0.1), 2)
 = 100.1` while its high is `round(max(100, 100, 100), 2) = 100` — the
`low + 0.1` floor can exceed the simulated high, so the claimed invariant
`high ≥ open` fails on a producible bar. -/
theorem C9_counterexample :
    refData (fun _ _ => 0) "9999" 1 = .ok [mkRefBar 100 (6/5) 0 0 0 0 0]
    ∧ (mkRefBar 100 (6/5) 0 0 0 0 0).high
        < (mkRefBar 100 (6/5) 0 0 0 0 0).openP := by
  constructor
  · unfold refData
    rw [show pyInt? "9999" = some 9999 from rfl]
    simp only [List.range_succ, List.range_zero, List.nil_append, List.map_cons,
      List.map_nil]
    rw [show refPrice "9999" = (100 : ℚ) from rfl]
    norm_num
  · have h1 : (mkRefBar 100 (6/5) 0 0 0 0 0).openP = 1001/10 := by
      simp only [mkRefBar]
      norm_num
      rw [round2_eq_of _ 10010 (by norm_num) (by norm_num)]
      norm_num
    have h2 : (mkRefBar 100 (6/5) 0 0 0 0 0).high = 100 := by
      simp only [mkRefBar]
      norm_num
      rw [round2_eq_of _ 10000 (by norm_num) (by norm_num)]
      norm_num
    rw [h1, h2]
    norm_num

/-- C9 (amended): every bar of the enhanced fetcher's synthetic series
satisfies the low-side invariants `low ≤ open`, `low ≤ close` and
`low ≤ high`, for all price, volatility and gaussian-draw values; the
high-side invariants `high ≥ open` and `high ≥ close` do not hold in general
(they fail when the simulated high-low spread is smaller than the 0.1 floor
added above low — see the counterexample). -/
theorem C9_low_invariants (price volatility g1 g2 g3 g4 g5 : ℚ) :
    (mkRefBar price volatility g1 g2 g3 g4 g5).low
      ≤ (mkRefBar price volatility g1 g2 g3 g4 g5).openP
    ∧ (mkRefBar price volatility g1 g2 g3 g4 g5).low
      ≤ (mkRefBar price volatility g1 g2 g3 g4 g5).close
    ∧ (mkRefBar price volatility g1 g2 g3 g4 g5).low
      ≤ (mkRefBar price volatility g1 g2 g3 g4 g5).high := by
  simp only [mkRefBar]
  refine ⟨round2_mono ?_, round2_mono ?_, round2_mono ?_⟩
  · exact le_trans (le_trans (min_le_right _ _) (min_le_left _ _))
      (le_max_left _ _)
  · exact le_trans (le_trans (min_le_right _ _) (min_le_right _ _))
      (le_max_left _ _)
  · exact le_trans (le_trans (min_le_right _ _) (min_le_left _ _))
      (le_trans (le_max_left _ _) (le_max_right _ _))

/-- A lookup miss makes `CacheManager.get` return `None` and leave the cache
untouched. -/
theorem cacheGet_of_lookup_none {α : Type} {c : Cache α} {key : String}
    {now : ℚ} (h : c.lookup key = none) : cacheGet c key now = (none, c) := by
  unfold cacheGet
  rw [h]

/-- The online retry loop never decreases the running invocation count. -/
theorem towrAux_count_ge (online : ℕ → List Bar) :
    ∀ (f a : ℕ), a ≤ (towrAux online a f).2 := by
  intro f
  induction f with
  | zero => intro a; exact Nat.le_refl a
  | succ f ih =>
    intro a
    simp only [towrAux]
    split
    · exact le_trans (by omega) (ih (a + 1))
    · omega

/-- With a positive retry budget, `_try_online_with_retry` invokes the tier at
least once. -/
theorem tryOnlineWithRetry_calls_pos (online : ℕ → List Bar) (m : ℕ)
    (h : 1 ≤ m) : 1 ≤ (tryOnlineWithRetry online m).2 := by
  cases m with
  | zero => omega
  | succ m =>
    unfold tryOnlineWithRetry
    simp only [towrAux]
    split
    · exact towrAux_count_ge online m 1
    · omega

/-- A `get_stock_price` call whose key is absent from the cache performs
exactly the online-retry invocations. -/
theorem getStockPrice_calls_of_miss {G : ℤ → ℕ → ℚ} {online : ℕ → List Bar}
    {maxR : ℕ} {ttl : ℚ} {use_cache : Bool} {c : Cache (List Bar)} {now : ℚ}
    {sid : String} {days : ℕ}
    (h : c.lookup (stockPriceKey sid days) = none) :
    (getStockPrice G online maxR ttl use_cache c now sid days).onlineCalls
      = (tryOnlineWithRetry online maxR).2 := by
  unfold getStockPrice
  have hcg : (if use_cache then cacheGet c (stockPriceKey sid days) now
      else (none, c)) = (none, c) := by
    cases use_cache
    · rfl
    · simp [cacheGet_of_lookup_none h]
  rw [hcg]
  rcases htry : tryOnlineWithRetry online maxR with ⟨df0, calls⟩
  simp only [htry]
  split <;> rfl

/-- A `get_stock_price` call whose key is absent from the cache and whose
outcome is an empty frame or an escaped exception leaves the cache exactly as
it was. -/
theorem getStockPrice_cache_of_empty {G : ℤ → ℕ → ℚ} {online : ℕ → List Bar}
    {maxR : ℕ} {ttl : ℚ} {use_cache : Bool} {c : Cache (List Bar)} {now : ℚ}
    {sid : String} {days : ℕ}
    (hl : c.lookup (stockPriceKey sid days) = none)
    (hres : (getStockPrice G online maxR ttl use_cache c now sid days).result
          = .ok []
        ∨ ∃ e, (getStockPrice G online maxR ttl use_cache c now
            sid days).result = .error e) :
    (getStockPrice G online maxR ttl use_cache c now sid days).cache = c := by
  have hcg : (if use_cache then cacheGet c (stockPriceKey sid days) now
      else (none, c)) = (none, c) := by
    cases use_cache
    · rfl
    · simp [cacheGet_of_lookup_none hl]
  unfold getStockPrice at hres ⊢
  rw [hcg] at hres ⊢
  split at hres
  next data c1 hdf =>
    simp at hdf
  next c1 hdf =>
    have hc1 : c1 = c := by
      injection hdf with h1 h2
      exact h2.symm
    subst hc1
    split at hres
    next df0 calls htry =>
      split at hres
      next e2 hdf2 =>
        rfl
      next df2 hdf2 =>
        rcases hres with hres | ⟨e3, hres⟩
        · simp at hres
          subst hres
          simp
        · simp at hres

/-- C10: the enhanced fetcher never stores an empty price series: when a fetch
for an uncached key produces an empty frame (or lets an exception escape), the
cache still holds no entry for that key afterwards, and every subsequent call
for the same (symbol, days) — with any providers and a positive retry budget —
invokes the online tier at least once instead of serving a cached empty
result. -/
theorem C10_empty_never_cached (G : ℤ → ℕ → ℚ) (online : ℕ → List Bar)
    (maxR : ℕ) (ttl : ℚ) (use_cache : Bool) (c : Cache (List Bar)) (now : ℚ)
    (sid : String) (days : ℕ)
    (hmiss : c.lookup (stockPriceKey sid days) = none)
    (hres : (getStockPrice G online maxR ttl use_cache c now sid days).result
          = .ok []
        ∨ ∃ e, (getStockPrice G online maxR ttl use_cache c now
            sid days).result = .error e) :
    ((getStockPrice G online maxR ttl use_cache c now sid days).cache.lookup
        (stockPriceKey sid days) = none)
    ∧ (∀ (G' : ℤ → ℕ → ℚ) (online' : ℕ → List Bar) (maxR' : ℕ)
        (ttl' now' : ℚ), 1 ≤ maxR' →
        1 ≤ (getStockPrice G' online' maxR' ttl' use_cache
            (getStockPrice G online maxR ttl use_cache c now sid days).cache
            now' sid days).onlineCalls) := by
  have hc := getStockPrice_cache_of_empty hmiss hres
  rw [hc]
  refine ⟨hmiss, ?_⟩
  intro G' online' maxR' ttl' now' hm
  rw [getStockPrice_calls_of_miss hmiss]
  exact tryOnlineWithRetry_calls_pos online' maxR' hm

/-- C10 (witness): a fetch for ("2330", 0 days) with every online attempt
empty returns the empty frame (the reference tier generates 0 rows) and
caches nothing under its key. -/
theorem C10_witness :
    (getStockPrice (fun _ _ => 0) (fun _ => []) 3 300 true [] 0
        "2330" 0).cache.lookup (stockPriceKey "2330" 0) = none :=
  (C10_empty_never_cached (fun _ _ => 0) (fun _ => []) 3 300 true [] 0 "2330" 0
    rfl (Or.inl rfl)).1

end StockAnalyzer
